import Mathlib

/-!
Verification of the `msg_storer/local_uploader` module of weedbox/whisper-modules.

The Go source (`uploader.go`) subscribes to a NATS JetStream subject and, for every
message, parses the payload `"<sequence>:<sourcePath>"`, derives an archive path by
string substitution of the datastore root with the archivestore root, creates the
destination directory chain, renames the source file to the archive path, appends a
ledger line to an `archive.index` file, and acknowledges the message.

We embed the pure string/path computations (`strings.SplitN`, `strings.ReplaceAll`,
`path.Clean`, `path.Dir`, `path.Join`) directly from their Go semantics, and the
effectful handler (`msgHandler`, `updateIndex`) as a function over an explicit
filesystem value (an association list of file contents) together with an oracle
of per-operation success bits for the environment-dependent failures (directory
permissions, rename errors, open/write errors).  The handler returns the sequence
of filesystem operations it invoked, the final filesystem, and its acknowledgment
decision; a run that would panic in Go (index out of range on `mdata[1]`) returns
`none`.
-/

namespace Uploader

/-- Strings are modelled as lists of characters (the payloads in question are ASCII,
so Go bytes/runes coincide with `Char` here). -/
abbrev Str := List Char

/-! ### Go `strings` functions used by the handler -/

/-- First split of a string at a separator character: `some (before, after)` for the
first occurrence, `none` when the separator does not occur.  This is the engine of
`strings.SplitN(s, sep, 2)`. -/
def splitFirst (sep : Char) : Str → Option (Str × Str)
  | [] => none
  | c :: rest =>
    if c = sep then some ([], rest)
    else match splitFirst sep rest with
      | none => none
      | some (a, b) => some (c :: a, b)

/-- Go `strings.SplitN(s, sep, 2)` for a one-character separator: a one-element list
when the separator is absent, otherwise the part before the first separator and
everything after it. -/
def splitN2 (s : Str) (sep : Char) : List Str :=
  match splitFirst sep s with
  | none => [s]
  | some (a, b) => [a, b]

/-- Go `strings.ReplaceAll` for a non-empty pattern `o :: os`: leftmost,
non-overlapping replacement of every occurrence by `new`.  The extra `Nat` is
structural-recursion fuel; every step consumes at least one character of the
input, so fuel equal to the input length (as supplied by `replaceAll`) makes the
`0` case unreachable. -/
def replaceAllFuel (o : Char) (os new : Str) : Nat → Str → Str
  | 0, s => s
  | Nat.succ fuel, s =>
    match s with
    | [] => []
    | c :: rest =>
      if (o :: os).isPrefixOf (c :: rest) then
        new ++ replaceAllFuel o os new fuel (rest.drop os.length)
      else
        c :: replaceAllFuel o os new fuel rest

/-- Go `strings.ReplaceAll(s, old, new)`.  An empty pattern inserts `new` before
every character and at the end, exactly as Go's `strings.Replace` does for an
empty separator. -/
def replaceAll (s old new : Str) : Str :=
  match old with
  | [] => new ++ s.flatMap (fun c => c :: new)
  | o :: os => replaceAllFuel o os new s.length s

/-! ### Go `path` functions used by the handler -/

/-- One step of Go `path.Clean`'s element processing: skip empty and `"."` elements,
let `".."` pop a previous real element (or be dropped at the root of a rooted path,
or pile up at the front of an unrooted path), and push every other element. -/
def cleanStep (rooted : Bool) (stack : List Str) (e : Str) : List Str :=
  if e = [] ∨ e = ['.'] then stack
  else if e = ['.', '.'] then
    match stack with
    | top :: rest => if top = ['.', '.'] then e :: top :: rest else rest
    | [] => if rooted then [] else [e]
  else e :: stack

/-- Go `path.Clean`: lexical simplification of a slash-separated path. -/
def clean (p : Str) : Str :=
  match p with
  | [] => ['.']
  | c :: _ =>
    let rooted := c = '/'
    let stack := ((p.splitOn '/').foldl (cleanStep rooted) []).reverse
    let body := List.intercalate ['/'] stack
    if rooted then '/' :: body
    else if body = [] then ['.'] else body

/-- The part of a path up to and including its last slash (`path.Split`'s dir part);
empty when the path has no slash. -/
def takeToLastSlash : Str → Str
  | [] => []
  | c :: rest =>
    if '/' ∈ rest then c :: takeToLastSlash rest
    else if c = '/' then ['/'] else []

/-- Go `path.Dir`: the cleaned directory part of a path (`"."` when there is none). -/
def dir (p : Str) : Str := clean (takeToLastSlash p)

/-- Go `path.Join` applied to a single element, as in `path.Join(u.datastore)`:
the empty string stays empty, anything else is cleaned. -/
def join1 (a : Str) : Str := if a = [] then [] else clean a

/-- Go `path.Join` applied to two elements, as in `path.Join(dstDir, "archive.index")`. -/
def join2 (a b : Str) : Str :=
  if a = [] then (if b = [] then [] else clean b)
  else clean (a ++ '/' :: b)

/-! ### Filesystem model -/

/-- The files of the filesystem: an association list from path to content.
Directories are not tracked explicitly; their creation is environment-dependent
and is decided by the oracle. -/
abbrev Files := List (Str × Str)

/-- Content of the file at a path, if any (first binding wins). -/
def fsLookup : Files → Str → Option Str
  | [], _ => none
  | (k, v) :: rest, p => if k = p then some v else fsLookup rest p

/-- Remove every binding of a path. -/
def fsErase : Files → Str → Files
  | [], _ => []
  | (k, v) :: rest, p => if k = p then fsErase rest p else (k, v) :: fsErase rest p

/-- Set the content of the file at a path. -/
def fsInsert (fs : Files) (p v : Str) : Files := (p, v) :: fsErase fs p

/-- The filesystem operations the handler can invoke, as recorded in its trace.
`openAppend` stands for `os.OpenFile` with flags `O_APPEND|O_CREATE|O_WRONLY`;
`sync` (an fsync/flush to persistent storage) is included so that its absence
from a trace is expressible — the source never calls it. -/
inductive FSOp
  | mkdirAll (p : Str) (perm : Nat)
  | rename (src dst : Str)
  | openAppend (p : Str) (perm : Nat)
  | write (d : Str)
  | close
  | sync
deriving DecidableEq

/-- Success bits for the environment-dependent outcomes of the handler's
filesystem calls (each call site runs at most once per message). -/
structure Oracle where
  mkdirOk : Bool
  renameEnvOk : Bool
  openOk : Bool
  writeOk : Bool
deriving DecidableEq

/-- The oracle in which every environment-dependent call succeeds. -/
def allOk : Oracle := ⟨true, true, true, true⟩

/-- The acknowledgment decision sent back to JetStream. -/
inductive Ack
  | ack
  | nak
deriving DecidableEq

/-- Result of one handler run: the filesystem operations invoked in order, the
final filesystem, and the acknowledgment decision. -/
structure Outcome where
  trace : List FSOp
  fs : Files
  ack : Ack
deriving DecidableEq

/-! ### The handler, from `uploader.go` -/

/-- The fixed ledger file name used by `updateIndex`. -/
def archiveIndexName : Str := "archive.index".toList

/-- The ledger line `fmt.Sprintf("%s:%s\n", seq, archiveName)`. -/
def ledgerLine (seq archiveName : Str) : Str := seq ++ ':' :: (archiveName ++ ['\n'])

/-- `(u *Uploader) updateIndex(filename, archiveName, seq)`: resolve the ledger as
`archive.index` next to `filename` (the code's `dstDir := path.Dir(filename)`),
open it with `O_APPEND|O_CREATE|O_WRONLY` mode 0644, append the ledger line, and
close it via the deferred `Close`.  Returns the operations invoked, the resulting
filesystem, and whether the call returned a nil error. -/
def updateIndex (o : Oracle) (fs : Files) (filename archiveName seq : Str) :
    List FSOp × Files × Bool :=
  let data := ledgerLine seq archiveName
  let dstDir := dir filename
  let indexFilename := join2 dstDir archiveIndexName
  if o.openOk then
    let fs1 := if fsLookup fs indexFilename = none then fsInsert fs indexFilename [] else fs
    if o.writeOk then
      let old := (fsLookup fs1 indexFilename).getD []
      ([.openAppend indexFilename 420, .write data, .close],
       fsInsert fs1 indexFilename (old ++ data), true)
    else
      ([.openAppend indexFilename 420, .write data, .close], fs1, false)
  else
    ([.openAppend indexFilename 420], fs, false)

/-- Line 153 of `uploader.go`: the derived archive path,
`strings.ReplaceAll(filename, path.Join(u.datastore), path.Join(u.archivestore))`. -/
def archiveNameOf (datastore archivestore filename : Str) : Str :=
  replaceAll filename (join1 datastore) (join1 archivestore)

/-- The body of `msgHandler` after the payload has been parsed into
`(seq, filename) = (mdata[0], mdata[1])`: `os.MkdirAll(path.Dir(archiveName), 0750)`,
then `os.Rename(filename, archiveName)`, then `updateIndex`; a failing step sends a
negative acknowledgment and returns, a fully successful run acknowledges positively.
`os.Rename` follows POSIX rename semantics: it fails when the source does not exist
(or the environment rejects it), and otherwise moves the source content to the
destination, silently replacing any existing destination file. -/
def processJob (o : Oracle) (datastore archivestore : Str) (fs : Files)
    (seq filename : Str) : Outcome :=
  let archiveName := archiveNameOf datastore archivestore filename
  let mkOp := FSOp.mkdirAll (dir archiveName) 488
  if o.mkdirOk then
    match fsLookup fs filename with
    | some content =>
      if o.renameEnvOk then
        let fs1 := fsInsert (fsErase fs filename) archiveName content
        let r := updateIndex o fs1 filename archiveName seq
        ⟨mkOp :: .rename filename archiveName :: r.1, r.2.1,
         if r.2.2 then .ack else .nak⟩
      else ⟨[mkOp, .rename filename archiveName], fs, .nak⟩
    | none => ⟨[mkOp, .rename filename archiveName], fs, .nak⟩
  else ⟨[mkOp], fs, .nak⟩

/-- The payload parse at the top of `msgHandler`:
`mdata := strings.SplitN(string(m.Data), ":", 2)` followed by the reads
`mdata[0]` and `mdata[1]`.  `none` when `mdata` has fewer than two elements,
in which case the Go code's `mdata[1]` panics with an index-out-of-range error. -/
def parsePayload (data : Str) : Option (Str × Str) :=
  match splitN2 data ':' with
  | [seq, filename] => some (seq, filename)
  | _ => none

/-- `(u *Uploader) msgHandler(m *nats.Msg)`: parse the payload and run the job.
`none` models the Go panic on `mdata[1]` when the payload has no `":"`. -/
def msgHandler (o : Oracle) (datastore archivestore : Str) (fs : Files)
    (data : Str) : Option Outcome :=
  match parsePayload data with
  | some (seq, filename) => some (processJob o datastore archivestore fs seq filename)
  | none => none

/-! ### Supporting lemmas -/

theorem prefixOf_true_iff (l₁ : Str) : ∀ l₂ : Str, l₁.isPrefixOf l₂ = true ↔ l₁ <+: l₂ := by
  induction l₁ with
  | nil =>
    intro l₂
    constructor
    · intro _; exact ⟨l₂, rfl⟩
    · intro _
      cases l₂ <;> rfl
  | cons a t ih =>
    intro l₂
    cases l₂ with
    | nil =>
      constructor
      · intro hb; exact absurd hb (by simp [List.isPrefixOf])
      · rintro ⟨u, hu⟩; exact absurd hu (by simp)
    | cons b t₂ =>
      simp only [List.isPrefixOf, Bool.and_eq_true, beq_iff_eq, ih]
      constructor
      · rintro ⟨rfl, u, rfl⟩; exact ⟨u, rfl⟩
      · rintro ⟨u, hu⟩
        injection hu with h1 h2
        exact ⟨h1, u, h2⟩

theorem replaceAllFuel_no_occurrence (o : Char) (os new : Str) (n : Nat) :
    ∀ s : Str, ¬ ((o :: os) <:+: s) → replaceAllFuel o os new n s = s := by
  induction n with
  | zero => intro s _; rfl
  | succ n ih =>
    intro s h
    match s with
    | [] => rfl
    | c :: rest =>
      have hni : ¬ ((o :: os) <:+: rest) := by
        rintro ⟨s₂, t₂, hh⟩
        exact h ⟨c :: s₂, t₂, by simp [← hh]⟩
      have hpre : ¬ ((o :: os).isPrefixOf (c :: rest) = true) := by
        intro hb
        obtain ⟨u, hu⟩ := (prefixOf_true_iff (o :: os) (c :: rest)).mp hb
        exact h ⟨[], u, hu⟩
      show (if (o :: os).isPrefixOf (c :: rest) then _ else _) = _
      rw [if_neg hpre]
      exact congrArg (c :: ·) (ih rest hni)

theorem replaceAll_no_occurrence (s old new : Str) (hne : old ≠ [])
    (h : ¬ (old <:+: s)) : replaceAll s old new = s := by
  match old, hne with
  | o :: os, _ => exact replaceAllFuel_no_occurrence o os new s.length s h

theorem replaceAll_swaps_leading_root (old new suffix : Str) (hne : old ≠ [])
    (h : ¬ (old <:+: suffix)) :
    replaceAll (old ++ suffix) old new = new ++ suffix := by
  match old, hne with
  | o :: os, _ =>
    show replaceAllFuel o os new ((o :: os) ++ suffix).length ((o :: os) ++ suffix) = _
    have hlen : ((o :: os) ++ suffix).length = Nat.succ (os ++ suffix).length := by simp
    rw [hlen]
    have hpre : (o :: os).isPrefixOf (o :: (os ++ suffix)) = true :=
      (prefixOf_true_iff (o :: os) ((o :: os) ++ suffix)).mpr ⟨suffix, rfl⟩
    show (if (o :: os).isPrefixOf (o :: (os ++ suffix)) then _ else _) = _
    rw [if_pos hpre]
    show new ++ replaceAllFuel o os new (os ++ suffix).length ((os ++ suffix).drop os.length) =
      new ++ suffix
    rw [List.drop_left os suffix,
      replaceAllFuel_no_occurrence o os new (os ++ suffix).length suffix h]

theorem fsLookup_erase (fs : Files) (p q : Str) :
    fsLookup (fsErase fs p) q = if p = q then none else fsLookup fs q := by
  induction fs with
  | nil => simp [fsErase, fsLookup]
  | cons kv rest ih =>
    obtain ⟨k, v⟩ := kv
    by_cases hk : k = p
    · subst hk
      by_cases hq : k = q
      · subst hq; simp [fsErase, fsLookup, ih]
      · simp [fsErase, fsLookup, hq, ih]
    · by_cases hq : k = q
      · subst hq
        have : ¬ (p = k) := fun hh => hk hh.symm
        simp [fsErase, fsLookup, hk, this, ih]
      · simp [fsErase, fsLookup, hk, hq, ih]

theorem fsLookup_insert (fs : Files) (p v q : Str) :
    fsLookup (fsInsert fs p v) q = if p = q then some v else fsLookup fs q := by
  by_cases hq : p = q
  · subst hq; simp [fsInsert, fsLookup]
  · simp [fsInsert, fsLookup, hq, fsLookup_erase]

theorem updateIndex_ok (o : Oracle) (fs : Files) (f a s : Str) :
    (updateIndex o fs f a s).2.2 = (o.openOk && o.writeOk) := by
  cases ho : o.openOk <;> cases hw : o.writeOk <;>
    simp [updateIndex, ho, hw]

theorem updateIndex_fs_frame (o : Oracle) (fs : Files) (f a s q : Str)
    (hq : q ≠ join2 (dir f) archiveIndexName) :
    fsLookup (updateIndex o fs f a s).2.1 q = fsLookup fs q := by
  have hq' : join2 (dir f) archiveIndexName ≠ q := Ne.symm hq
  cases ho : o.openOk <;> cases hw : o.writeOk
  · simp [updateIndex, ho, hw]
  · simp [updateIndex, ho, hw]
  · simp only [updateIndex, ho, hw]
    split_ifs <;> simp [fsLookup_insert, hq']
  · simp only [updateIndex, ho, hw]
    split_ifs <;> simp [fsLookup_insert, hq']

theorem processJob_ack (o : Oracle) (ds as : Str) (fs : Files) (seq f : Str) :
    (processJob o ds as fs seq f).ack =
      if o.mkdirOk && (fsLookup fs f).isSome && o.renameEnvOk && o.openOk && o.writeOk
      then Ack.ack else Ack.nak := by
  cases hm : o.mkdirOk
  · simp [processJob, hm]
  · cases hf : fsLookup fs f
    · simp [processJob, hm, hf]
    · cases hr : o.renameEnvOk
      · simp [processJob, hm, hf, hr]
      · cases ho : o.openOk <;> cases hw : o.writeOk <;>
          simp [processJob, hm, hf, hr, updateIndex_ok, ho, hw]

/-! ### Claim theorems -/

/-- C1: On the spec's own scenario (payload `"42:/datastore/a/b/file.dat"`, roots
`/datastore` → `/archivestore`, every operation succeeding), the job succeeds and
the ledger line `"42:/archivestore/a/b/file.dat\n"` is appended to
`/datastore/a/b/archive.index` — the `archive.index` in the parent directory of
the SOURCE path — while no file is created at `/archivestore/a/b/archive.index`,
the parent directory of `archiveName` where the claim places the ledger:
`updateIndex` is passed `filename` and takes `path.Dir` of it, even though the
receiving variable is named `dstDir`. -/
theorem c1_ledger_goes_to_source_dir :
    msgHandler allOk "/datastore".toList "/archivestore".toList
      [("/datastore/a/b/file.dat".toList, "X".toList)] "42:/datastore/a/b/file.dat".toList =
    some ⟨[FSOp.mkdirAll "/archivestore/a/b".toList 488,
           FSOp.rename "/datastore/a/b/file.dat".toList "/archivestore/a/b/file.dat".toList,
           FSOp.openAppend "/datastore/a/b/archive.index".toList 420,
           FSOp.write "42:/archivestore/a/b/file.dat\n".toList, FSOp.close],
          [("/datastore/a/b/archive.index".toList, "42:/archivestore/a/b/file.dat\n".toList),
           ("/archivestore/a/b/file.dat".toList, "X".toList)],
          Ack.ack⟩ ∧
    (msgHandler allOk "/datastore".toList "/archivestore".toList
      [("/datastore/a/b/file.dat".toList, "X".toList)]
      "42:/datastore/a/b/file.dat".toList).map
        (fun out => fsLookup out.fs "/archivestore/a/b/archive.index".toList) =
      some none := by
  constructor
  · decide
  · decide

/-- C2: On the spec's scenario payload `"bad-payload-no-colon"` (no `":"`
separator), `msgHandler` does not classify the message and acknowledge
negatively: `strings.SplitN` yields a single element and the read `mdata[1]`
panics (modelled as `none`), so no acknowledgment decision is ever produced. -/
theorem c2_no_separator_panics :
    msgHandler allOk "/datastore".toList "/archivestore".toList []
      "bad-payload-no-colon".toList = none ∧
    parsePayload "bad-payload-no-colon".toList = none := by
  constructor
  · decide
  · decide

/-- C3 (counterexample): for the sourcePath `"/datastore" ++ "/a/datastore/f"`,
which has the datastore root as a leading prefix but also contains the root
inside its relative suffix, the derived archive path is NOT the prefix swap with
the suffix preserved: `strings.ReplaceAll` also rewrites the inner occurrence,
producing `"/archivestore/a/archivestore/f"`. -/
theorem c3_suffix_not_preserved :
    archiveNameOf "/datastore".toList "/archivestore".toList
      ("/datastore".toList ++ "/a/datastore/f".toList) =
      "/archivestore/a/archivestore/f".toList ∧
    archiveNameOf "/datastore".toList "/archivestore".toList
      ("/datastore".toList ++ "/a/datastore/f".toList) ≠
      "/archivestore".toList ++ "/a/datastore/f".toList := by
  constructor
  · decide
  · decide

/-- C3 (amended): when the (cleaned) datastore root does not reoccur inside the
relative suffix, the derived archive path is exactly the archivestore root
followed by the unchanged suffix; in general `ReplaceAll` rewrites every
occurrence of the root, not only the leading one. -/
theorem c3_prefix_swap_of_root_not_in_suffix (ds as suffix : Str)
    (h1 : join1 ds ≠ []) (h2 : ¬ (join1 ds <:+: suffix)) :
    archiveNameOf ds as (join1 ds ++ suffix) = join1 as ++ suffix :=
  replaceAll_swaps_leading_root (join1 ds) (join1 as) suffix h1 h2

/-- Witness for C3 (amended) at the spec's scenario roots and suffix. -/
theorem c3_prefix_swap_witness :
    join1 "/datastore".toList ≠ [] ∧
    ¬ (join1 "/datastore".toList <:+: "/a/b/file.dat".toList) ∧
    archiveNameOf "/datastore".toList "/archivestore".toList
      (join1 "/datastore".toList ++ "/a/b/file.dat".toList) =
      join1 "/archivestore".toList ++ "/a/b/file.dat".toList :=
  ⟨by decide, by decide,
    c3_prefix_swap_of_root_not_in_suffix "/datastore".toList "/archivestore".toList
      "/a/b/file.dat".toList (by decide) (by decide)⟩

/-- C4 (counterexample): for the well-formed payload `"7:/elsewhere/f"` whose
source path is not under `/datastore`, the handler performs no rejection at all:
with every operation succeeding and the source file present it creates the
directory chain, renames the file onto itself, appends a ledger line — mutating
the filesystem — and acknowledges POSITIVELY, contradicting the claimed
permanent `InvalidPathError` with negative ack and no mutation (no such error
exists anywhere in the source). -/
theorem c4_unrooted_path_accepted :
    msgHandler allOk "/datastore".toList "/archivestore".toList
      [("/elsewhere/f".toList, "X".toList)] "7:/elsewhere/f".toList =
    some ⟨[FSOp.mkdirAll "/elsewhere".toList 488,
           FSOp.rename "/elsewhere/f".toList "/elsewhere/f".toList,
           FSOp.openAppend "/elsewhere/archive.index".toList 420,
           FSOp.write "7:/elsewhere/f\n".toList, FSOp.close],
          [("/elsewhere/archive.index".toList, "7:/elsewhere/f\n".toList),
           ("/elsewhere/f".toList, "X".toList)],
          Ack.ack⟩ := by decide

/-- C4 (amended): the handler performs no root-prefix validation.  A well-formed
payload whose source path contains no occurrence of the (cleaned, non-empty)
datastore root is processed with `archivePath = sourcePath`; directory creation,
rename and ledger write all proceed, and when they succeed (source present,
every operation allowed) the message is positively acknowledged. -/
theorem c4_no_root_validation (ds as : Str) (fs : Files)
    (data seq filename content : Str)
    (hp : parsePayload data = some (seq, filename))
    (h1 : join1 ds ≠ []) (h2 : ¬ (join1 ds <:+: filename))
    (hs : fsLookup fs filename = some content) :
    archiveNameOf ds as filename = filename ∧
    ∃ out, msgHandler allOk ds as fs data = some out ∧ out.ack = Ack.ack ∧
      out.trace = [FSOp.mkdirAll (dir filename) 488, FSOp.rename filename filename,
        FSOp.openAppend (join2 (dir filename) archiveIndexName) 420,
        FSOp.write (ledgerLine seq filename), FSOp.close] := by
  have ha : archiveNameOf ds as filename = filename :=
    replaceAll_no_occurrence filename (join1 ds) (join1 as) h1 h2
  refine ⟨ha, processJob allOk ds as fs seq filename, by simp [msgHandler, hp], ?_, ?_⟩
  · simp [processJob, ha, hs, allOk, updateIndex]
  · simp [processJob, ha, hs, allOk, updateIndex]

/-- Witness for C4 (amended) at a concrete unrooted source path. -/
theorem c4_no_root_validation_witness :
    parsePayload "7:/elsewhere/f".toList = some ("7".toList, "/elsewhere/f".toList) ∧
    join1 "/datastore".toList ≠ [] ∧
    ¬ (join1 "/datastore".toList <:+: "/elsewhere/f".toList) ∧
    fsLookup [("/elsewhere/f".toList, "X".toList)] "/elsewhere/f".toList =
      some "X".toList ∧
    (archiveNameOf "/datastore".toList "/archivestore".toList "/elsewhere/f".toList =
      "/elsewhere/f".toList ∧
     ∃ out, msgHandler allOk "/datastore".toList "/archivestore".toList
        [("/elsewhere/f".toList, "X".toList)] "7:/elsewhere/f".toList = some out ∧
        out.ack = Ack.ack ∧
        out.trace = [FSOp.mkdirAll (dir "/elsewhere/f".toList) 488,
          FSOp.rename "/elsewhere/f".toList "/elsewhere/f".toList,
          FSOp.openAppend (join2 (dir "/elsewhere/f".toList) archiveIndexName) 420,
          FSOp.write (ledgerLine "7".toList "/elsewhere/f".toList), FSOp.close]) :=
  ⟨by decide, by decide, by decide, by decide,
    c4_no_root_validation "/datastore".toList "/archivestore".toList
      [("/elsewhere/f".toList, "X".toList)] "7:/elsewhere/f".toList
      "7".toList "/elsewhere/f".toList "X".toList
      (by decide) (by decide) (by decide) (by decide)⟩

/-- C5 (counterexample): the empty payload contains no `":"`, so `mdata[1]`
panics before any acknowledgment: this invocation of the handler resolves to no
acknowledgment decision at all, and the per-job error does crash the process. -/
theorem c5_empty_payload_no_ack :
    msgHandler allOk "/datastore".toList "/archivestore".toList [] "".toList = none := by
  decide

/-- C5 (amended): for every payload that does contain a `":"` separator, the
handler resolves to exactly one acknowledgment decision — positive exactly when
directory creation, the rename, and the ledger write all succeed, negative on
every failure; payloads without a separator instead crash the handler. -/
theorem c5_ack_characterization (o : Oracle) (ds as : Str) (fs : Files)
    (data seq filename : Str) (hp : parsePayload data = some (seq, filename)) :
    ∃ out, msgHandler o ds as fs data = some out ∧
      (out.ack = Ack.ack ↔
        (o.mkdirOk && (fsLookup fs filename).isSome && o.renameEnvOk &&
         o.openOk && o.writeOk) = true) := by
  refine ⟨processJob o ds as fs seq filename, by simp [msgHandler, hp], ?_⟩
  rw [processJob_ack]
  split
  · rename_i hb; simp [hb]
  · rename_i hb; simp [hb]

/-- Witness for C5 (amended) at the spec's scenario input with every operation
succeeding. -/
theorem c5_ack_characterization_witness :
    parsePayload "42:/datastore/a/b/file.dat".toList =
      some ("42".toList, "/datastore/a/b/file.dat".toList) ∧
    ∃ out, msgHandler allOk "/datastore".toList "/archivestore".toList
        [("/datastore/a/b/file.dat".toList, "X".toList)]
        "42:/datastore/a/b/file.dat".toList = some out ∧
      (out.ack = Ack.ack ↔
        (allOk.mkdirOk &&
         (fsLookup [("/datastore/a/b/file.dat".toList, "X".toList)]
            "/datastore/a/b/file.dat".toList).isSome &&
         allOk.renameEnvOk && allOk.openOk && allOk.writeOk) = true) :=
  ⟨by decide,
    c5_ack_characterization allOk "/datastore".toList "/archivestore".toList
      [("/datastore/a/b/file.dat".toList, "X".toList)]
      "42:/datastore/a/b/file.dat".toList "42".toList
      "/datastore/a/b/file.dat".toList (by decide)⟩

/-- C6 (counterexample): a fully successful ledger record returns success while
its operation trace contains no flush/sync to persistent storage: `updateIndex`
only opens, writes and (via the deferred `Close`) closes — it never calls any
sync primitive before reporting success. -/
theorem c6_success_without_flush :
    (updateIndex allOk [] "/datastore/a/b/file.dat".toList
      "/archivestore/a/b/file.dat".toList "42".toList).2.2 = true ∧
    FSOp.sync ∉ (updateIndex allOk [] "/datastore/a/b/file.dat".toList
      "/archivestore/a/b/file.dat".toList "42".toList).1 := by
  constructor
  · decide
  · decide

/-- C6 (amended): the ledger record opens `archive.index` for append (creating
it if absent, mode 0644), writes the single line `"<sequence>:<archiveName>\n"`,
and returns success after the write and the deferred close, WITHOUT flushing or
committing the data to persistent storage (no sync operation is ever issued). -/
theorem c6_append_one_line_no_sync (o : Oracle) (fs : Files) (f a s : Str)
    (ho : o.openOk = true) (hw : o.writeOk = true) :
    (updateIndex o fs f a s).1 =
      [FSOp.openAppend (join2 (dir f) archiveIndexName) 420,
       FSOp.write (ledgerLine s a), FSOp.close] ∧
    (updateIndex o fs f a s).2.2 = true ∧
    FSOp.sync ∉ (updateIndex o fs f a s).1 := by
  refine ⟨?_, ?_, ?_⟩ <;> simp [updateIndex, ho, hw]

/-- Witness for C6 (amended) at the spec's scenario paths. -/
theorem c6_append_one_line_no_sync_witness :
    allOk.openOk = true ∧ allOk.writeOk = true ∧
    ((updateIndex allOk [] "/datastore/a/b/file.dat".toList
        "/archivestore/a/b/file.dat".toList "42".toList).1 =
      [FSOp.openAppend (join2 (dir "/datastore/a/b/file.dat".toList) archiveIndexName) 420,
       FSOp.write (ledgerLine "42".toList "/archivestore/a/b/file.dat".toList), FSOp.close] ∧
     (updateIndex allOk [] "/datastore/a/b/file.dat".toList
        "/archivestore/a/b/file.dat".toList "42".toList).2.2 = true ∧
     FSOp.sync ∉ (updateIndex allOk [] "/datastore/a/b/file.dat".toList
        "/archivestore/a/b/file.dat".toList "42".toList).1) :=
  ⟨by decide, by decide,
    c6_append_one_line_no_sync allOk [] "/datastore/a/b/file.dat".toList
      "/archivestore/a/b/file.dat".toList "42".toList (by decide) (by decide)⟩

/-- C7: when directory creation fails, the handler's entire run is the single
failed `MkdirAll`: the rename is never attempted, no ledger operation happens,
the filesystem — in particular the source file — is left exactly as it was, and
the message is negatively acknowledged. -/
theorem c7_mkdir_failure_frame (o : Oracle) (ds as : Str) (fs : Files)
    (data seq filename : Str) (hp : parsePayload data = some (seq, filename))
    (hm : o.mkdirOk = false) :
    msgHandler o ds as fs data =
      some ⟨[FSOp.mkdirAll (dir (archiveNameOf ds as filename)) 488], fs, Ack.nak⟩ := by
  simp [msgHandler, hp, processJob, hm]

/-- Witness for C7 with a concrete oracle in which only `MkdirAll` fails. -/
theorem c7_mkdir_failure_frame_witness :
    parsePayload "42:/datastore/a/b/file.dat".toList =
      some ("42".toList, "/datastore/a/b/file.dat".toList) ∧
    Oracle.mkdirOk ⟨false, true, true, true⟩ = false ∧
    msgHandler ⟨false, true, true, true⟩ "/datastore".toList "/archivestore".toList
      [("/datastore/a/b/file.dat".toList, "X".toList)]
      "42:/datastore/a/b/file.dat".toList =
    some ⟨[FSOp.mkdirAll (dir (archiveNameOf "/datastore".toList "/archivestore".toList
        "/datastore/a/b/file.dat".toList)) 488],
      [("/datastore/a/b/file.dat".toList, "X".toList)], Ack.nak⟩ :=
  ⟨by decide, by decide,
    c7_mkdir_failure_frame ⟨false, true, true, true⟩ "/datastore".toList
      "/archivestore".toList [("/datastore/a/b/file.dat".toList, "X".toList)]
      "42:/datastore/a/b/file.dat".toList "42".toList
      "/datastore/a/b/file.dat".toList (by decide) (by decide)⟩

/-- C9: a payload beginning with `":"` parses to the empty sequence token, and
the handler runs the job exactly as for any other sequence: the resulting run is
the generic job processing applied to the empty sequence, the acknowledgment is
the same as it would be for any other sequence token, and the ledger line built
for the job begins with `":"`. -/
theorem c9_empty_sequence_processed (o : Oracle) (ds as : Str) (fs : Files)
    (rest : Str) :
    msgHandler o ds as fs (':' :: rest) = some (processJob o ds as fs [] rest) ∧
    (∀ seq : Str,
      (processJob o ds as fs seq rest).ack = (processJob o ds as fs [] rest).ack) ∧
    (ledgerLine [] (archiveNameOf ds as rest)).head? = some ':' := by
  refine ⟨?_, ?_, rfl⟩
  · simp [msgHandler, parsePayload, splitN2, splitFirst]
  · intro seq
    rw [processJob_ack, processJob_ack]

/-- C10: when a file already exists at the derived archive path, a fully
successful run silently replaces it with the source file: the job is still
positively acknowledged, the destination afterwards holds exactly the source
content, and the source path holds nothing (the side conditions only rule out
the degenerate collisions of the two paths with each other and with the ledger
file). -/
theorem c10_rename_overwrites_existing (ds as : Str) (fs : Files)
    (data seq filename content : Str)
    (hp : parsePayload data = some (seq, filename))
    (hsrc : fsLookup fs filename = some content)
    (_hdst : (fsLookup fs (archiveNameOf ds as filename)).isSome = true)
    (hne : filename ≠ archiveNameOf ds as filename)
    (hni : archiveNameOf ds as filename ≠ join2 (dir filename) archiveIndexName)
    (hnif : filename ≠ join2 (dir filename) archiveIndexName) :
    ∃ out, msgHandler allOk ds as fs data = some out ∧ out.ack = Ack.ack ∧
      fsLookup out.fs (archiveNameOf ds as filename) = some content ∧
      fsLookup out.fs filename = none := by
  have hfs : (processJob allOk ds as fs seq filename).fs =
      (updateIndex allOk
        (fsInsert (fsErase fs filename) (archiveNameOf ds as filename) content)
        filename (archiveNameOf ds as filename) seq).2.1 := by
    simp [processJob, allOk, hsrc]
  refine ⟨processJob allOk ds as fs seq filename, by simp [msgHandler, hp], ?_, ?_, ?_⟩
  · rw [processJob_ack]
    simp [allOk, hsrc]
  · rw [hfs, updateIndex_fs_frame _ _ _ _ _ _ hni, fsLookup_insert]
    simp
  · rw [hfs, updateIndex_fs_frame _ _ _ _ _ _ hnif, fsLookup_insert,
      if_neg (Ne.symm hne), fsLookup_erase, if_pos rfl]

/-- Witness for C10: the spec's scenario job with a stale file already present
at the destination. -/
theorem c10_rename_overwrites_existing_witness :
    parsePayload "42:/datastore/a/b/file.dat".toList =
      some ("42".toList, "/datastore/a/b/file.dat".toList) ∧
    fsLookup [("/datastore/a/b/file.dat".toList, "NEW".toList),
        ("/archivestore/a/b/file.dat".toList, "OLD".toList)]
      "/datastore/a/b/file.dat".toList = some "NEW".toList ∧
    (fsLookup [("/datastore/a/b/file.dat".toList, "NEW".toList),
        ("/archivestore/a/b/file.dat".toList, "OLD".toList)]
      (archiveNameOf "/datastore".toList "/archivestore".toList
        "/datastore/a/b/file.dat".toList)).isSome = true ∧
    ∃ out, msgHandler allOk "/datastore".toList "/archivestore".toList
        [("/datastore/a/b/file.dat".toList, "NEW".toList),
         ("/archivestore/a/b/file.dat".toList, "OLD".toList)]
        "42:/datastore/a/b/file.dat".toList = some out ∧
      out.ack = Ack.ack ∧
      fsLookup out.fs (archiveNameOf "/datastore".toList "/archivestore".toList
        "/datastore/a/b/file.dat".toList) = some "NEW".toList ∧
      fsLookup out.fs "/datastore/a/b/file.dat".toList = none :=
  ⟨by decide, by decide, by decide,
    c10_rename_overwrites_existing "/datastore".toList "/archivestore".toList
      [("/datastore/a/b/file.dat".toList, "NEW".toList),
       ("/archivestore/a/b/file.dat".toList, "OLD".toList)]
      "42:/datastore/a/b/file.dat".toList "42".toList
      "/datastore/a/b/file.dat".toList "NEW".toList
      (by decide) (by decide) (by decide) (by decide) (by decide) (by decide)⟩

end Uploader
